import Mathlib

/-!
Verification of the resilience-patterns toolkit.

Shallow embedding of the four core modules of the repository
(`circuit_breaker.py`, `rate_limiter.py`, `retry_policy.py`, `dlq.py`).
Machine floats and `datetime` values are modelled as exact rationals (`ℚ`),
Python dictionaries keyed by strings as association lists, and exceptions as
explicit sum-type results.  Field and function names follow the Python source.
-/

namespace Resilience

/-! ## Circuit breaker (`circuit_breaker.py`) -/

namespace CB

/-- `CircuitState` enum from `circuit_breaker.py`. -/
inductive CircuitState where
  | CLOSED
  | OPEN
  | HALF_OPEN
deriving DecidableEq

/-- Mutable state of a `CircuitBreaker` instance: configuration fields plus
the tracked counters (`_state`, `_failure_count`, `_success_count`,
`_last_failure_time`, `_opened_at`) and lifetime metrics. -/
structure CircuitBreaker where
  failure_threshold : ℕ
  success_threshold : ℕ
  timeout : ℚ
  _state : CircuitState
  _failure_count : ℕ
  _success_count : ℕ
  _last_failure_time : Option ℚ
  _opened_at : Option ℚ
  _total_calls : ℕ
  _total_failures : ℕ
  _total_successes : ℕ
deriving DecidableEq

/-- `CircuitBreaker._should_attempt_reset`: the timeout has elapsed since
`_opened_at`. -/
def _should_attempt_reset (cb : CircuitBreaker) (now : ℚ) : Bool :=
  match cb._opened_at with
  | none => false
  | some t => decide (now - t ≥ cb.timeout)

/-- `CircuitBreaker._transition_to`: set the new state; entering OPEN stamps
`_opened_at`, entering CLOSED clears both streaks and `_opened_at`, entering
HALF_OPEN changes no counter.  (The `on_state_change` callback is external
side-effect only and is not part of the state.) -/
def _transition_to (cb : CircuitBreaker) (new_state : CircuitState) (now : ℚ) :
    CircuitBreaker :=
  let cb1 := { cb with _state := new_state }
  match new_state with
  | .OPEN => { cb1 with _opened_at := some now }
  | .CLOSED => { cb1 with _failure_count := 0, _success_count := 0, _opened_at := none }
  | .HALF_OPEN => cb1

/-- The `state` property: lazily transitions OPEN to HALF_OPEN when the
timeout has elapsed, and returns the (possibly updated) breaker together
with the state it reports. -/
def state (cb : CircuitBreaker) (now : ℚ) : CircuitBreaker × CircuitState :=
  if cb._state = .OPEN ∧ _should_attempt_reset cb now then
    let cb1 := _transition_to cb .HALF_OPEN now
    (cb1, cb1._state)
  else
    (cb, cb._state)

/-- `CircuitBreaker._on_success`. -/
def _on_success (cb : CircuitBreaker) (now : ℚ) : CircuitBreaker :=
  let cb1 := { cb with
    _total_calls := cb._total_calls + 1
    _total_successes := cb._total_successes + 1
    _failure_count := 0 }
  if cb1._state = .HALF_OPEN then
    let cb2 := { cb1 with _success_count := cb1._success_count + 1 }
    if cb2._success_count ≥ cb2.success_threshold then
      _transition_to cb2 .CLOSED now
    else cb2
  else cb1

/-- `CircuitBreaker._on_failure`. -/
def _on_failure (cb : CircuitBreaker) (now : ℚ) : CircuitBreaker :=
  let cb1 := { cb with
    _total_calls := cb._total_calls + 1
    _total_failures := cb._total_failures + 1
    _last_failure_time := some now }
  if cb1._state = .HALF_OPEN then
    _transition_to cb1 .OPEN now
  else
    let cb2 := { cb1 with _failure_count := cb1._failure_count + 1 }
    if cb2._failure_count ≥ cb2.failure_threshold then
      _transition_to cb2 .OPEN now
    else cb2

/-- Outcome of invoking the wrapped operation: a value, or an exception that
is or is not in `expected_exceptions`. -/
inductive OpOutcome (ε α : Type) where
  | ok (a : α)
  | exc (e : ε) (classified : Bool)
deriving DecidableEq

/-- Result observed by the caller of `CircuitBreaker.call`: the
`CircuitBreakerOpen` rejection (carrying the number of seconds the
exception message quotes for the next retry), a returned value, or the
operation's own exception re-raised. -/
inductive CallResult (ε α : Type) where
  | rejected (retry_after : ℚ)
  | ok (a : α)
  | raised (e : ε)
deriving DecidableEq

/-- `CircuitBreaker.call`: read the (lazily updated) state; if OPEN, raise
`CircuitBreakerOpen` quoting `self.timeout` without invoking `func`;
otherwise invoke `func`, routing a classified exception through
`_on_failure` and re-raising it, an unclassified one untouched. -/
def call (cb : CircuitBreaker) (now : ℚ) (func : Unit → OpOutcome ε α) :
    CircuitBreaker × CallResult ε α :=
  let p := state cb now
  if p.2 = .OPEN then
    (p.1, .rejected p.1.timeout)
  else
    match func () with
    | .ok a => (_on_success p.1 now, .ok a)
    | .exc e true => (_on_failure p.1 now, .raised e)
    | .exc e false => (p.1, .raised e)

/-- `CircuitBreaker.get_metrics`, restricted to the lifetime totals the
claims mention. -/
def get_metrics (cb : CircuitBreaker) : ℕ × ℕ × ℕ :=
  (cb._total_calls, cb._total_failures, cb._total_successes)

/-- A freshly constructed breaker (`__init__` defaults for the state part). -/
def init (failure_threshold success_threshold : ℕ) (timeout : ℚ) : CircuitBreaker :=
  { failure_threshold := failure_threshold
    success_threshold := success_threshold
    timeout := timeout
    _state := .CLOSED
    _failure_count := 0
    _success_count := 0
    _last_failure_time := none
    _opened_at := none
    _total_calls := 0
    _total_failures := 0
    _total_successes := 0 }

end CB

/-! ### Circuit-breaker theorems -/

/-- Classified failing operation used in the `C1` trace. -/
def c1_fail : Unit → CB.OpOutcome Unit ℕ := fun _ => .exc () true

/-- Succeeding operation used in the `C1` trace. -/
def c1_succ : Unit → CB.OpOutcome Unit ℕ := fun _ => .ok 0

/-- State after one classified failure at t=0 on a fresh breaker with
`failure_threshold = 2`, `success_threshold = 2`, `timeout = 60`. -/
def c1_s1 : CB.CircuitBreaker := (CB.call (CB.init 2 2 60) 0 c1_fail).1

/-- State after a second classified failure at t=1: the breaker opens. -/
def c1_s2 : CB.CircuitBreaker := (CB.call c1_s1 1 c1_fail).1

/-- State after a success at t=62: HALF_OPEN probe, one success recorded. -/
def c1_s3 : CB.CircuitBreaker := (CB.call c1_s2 62 c1_succ).1

/-- State after a classified failure at t=63: immediately back to OPEN. -/
def c1_s4 : CB.CircuitBreaker := (CB.call c1_s3 63 c1_fail).1

lemma c1_s1_eq :
    c1_s1 = ⟨2, 2, 60, .CLOSED, 1, 0, some 0, none, 1, 1, 0⟩ := by
  simp [c1_s1, c1_fail, CB.call, CB.state, CB._should_attempt_reset,
    CB._transition_to, CB._on_failure, CB.init]

lemma c1_s2_eq :
    c1_s2 = ⟨2, 2, 60, .OPEN, 2, 0, some 1, some 1, 2, 2, 0⟩ := by
  rw [c1_s2, c1_s1_eq]
  simp [c1_fail, CB.call, CB.state, CB._should_attempt_reset,
    CB._transition_to, CB._on_failure]

lemma c1_s3_eq :
    c1_s3 = ⟨2, 2, 60, .HALF_OPEN, 0, 1, some 1, some 1, 3, 2, 1⟩ := by
  rw [c1_s3, c1_s2_eq]
  simp [c1_succ, CB.call, CB.state, CB._should_attempt_reset,
    CB._transition_to, CB._on_success,
    show (60 : ℚ) ≤ 62 - 1 from by norm_num]

lemma c1_s4_eq :
    c1_s4 = ⟨2, 2, 60, .OPEN, 0, 1, some 63, some 63, 4, 3, 1⟩ := by
  rw [c1_s4, c1_s3_eq]
  simp [c1_fail, CB.call, CB.state, CB._should_attempt_reset,
    CB._transition_to, CB._on_failure]

/-- C1: the claim says the HALF_OPEN → OPEN transition resets both streaks to
0.  The code's `_transition_to(OPEN)` resets neither: after the failure at
t=63 the breaker is OPEN with `_success_count` still 1.  Consequently the next
HALF_OPEN episode (t=124) closes the circuit after a single success even
though `success_threshold = 2` and the two successes were separated by a
failure — contradicting the constructor docstring "Number of consecutive
successes in HALF_OPEN before closing".  The spec states the intended
behaviour; the code is the slip. -/
theorem circuit_halfopen_failure_keeps_success_streak :
    c1_s4._state = CB.CircuitState.OPEN ∧
    c1_s4._success_count = 1 ∧
    c1_s4.success_threshold = 2 ∧
    (CB.call c1_s4 124 c1_succ).1._state = CB.CircuitState.CLOSED := by
  rw [c1_s4_eq]
  simp [c1_succ, CB.call, CB.state, CB._should_attempt_reset,
    CB._transition_to, CB._on_success,
    show (60 : ℚ) ≤ 124 - 63 from by norm_num]

/-- Breaker stuck OPEN (opened at t=0, timeout 60) probed at t=10. -/
def c3_cb : CB.CircuitBreaker :=
  { CB.init 3 2 60 with _state := .OPEN, _opened_at := some 0 }

/-- C3 counterexample: at t=10 with `timeout = 60` and `opened_at = 0` the
rejection carries the constant 60 (the configured timeout quoted by
`CircuitBreakerOpen`), not the remaining time `60 - 10 = 50` the claim
requires. -/
theorem circuit_open_rejection_constant_timeout_cex :
    (CB.call c3_cb 10 (fun _ => CB.OpOutcome.ok 0 : Unit → CB.OpOutcome Unit ℕ)).2 =
      CB.CallResult.rejected 60 ∧
    c3_cb.timeout - (10 - 0) = 50 ∧ (60 : ℚ) ≠ 50 := by
  refine ⟨?_, by norm_num [c3_cb, CB.init], by norm_num⟩
  simp [c3_cb, CB.call, CB.state, CB._should_attempt_reset, CB.init,
    show ¬ ((60 : ℚ) ≤ 10) from by norm_num]

/-- C3 (amended): while the lazily-updated state is OPEN, `call` never
invokes the wrapped operation (its result does not depend on it) and fails
with a circuit-open signal carrying the full configured `timeout` constant,
not the remaining time. -/
theorem circuit_open_rejection_carries_timeout (cb : CB.CircuitBreaker) (now : ℚ)
    {ε α : Type} (func : Unit → CB.OpOutcome ε α)
    (h : (CB.state cb now).2 = CB.CircuitState.OPEN) :
    (CB.call cb now func).2 = CB.CallResult.rejected cb.timeout ∧
    ∀ func' : Unit → CB.OpOutcome ε α, CB.call cb now func' = CB.call cb now func := by
  have hcond : ¬ (cb._state = CB.CircuitState.OPEN ∧
      CB._should_attempt_reset cb now = true) := by
    intro hc
    unfold CB.state at h
    rw [if_pos hc] at h
    simp [CB._transition_to] at h
  have hst : CB.state cb now = (cb, cb._state) := by
    unfold CB.state
    rw [if_neg hcond]
  have hopen : cb._state = CB.CircuitState.OPEN := by
    rw [hst] at h
    exact h
  constructor
  · unfold CB.call
    rw [hst]
    simp [hopen]
  · intro func'
    unfold CB.call
    rw [hst]
    simp [hopen]

/-- Witness for `circuit_open_rejection_carries_timeout` at `c3_cb`, t=10. -/
theorem circuit_open_rejection_carries_timeout_witness :
    (CB.state c3_cb 10).2 = CB.CircuitState.OPEN ∧
    (CB.call c3_cb 10 (fun _ => CB.OpOutcome.ok 0 : Unit → CB.OpOutcome Unit ℕ)).2 =
      CB.CallResult.rejected c3_cb.timeout :=
  ⟨by simp [c3_cb, CB.state, CB._should_attempt_reset, CB.init,
      show ¬ ((60 : ℚ) ≤ 10) from by norm_num],
   (circuit_open_rejection_carries_timeout c3_cb 10
     (fun _ => CB.OpOutcome.ok 0)
     (by simp [c3_cb, CB.state, CB._should_attempt_reset, CB.init,
       show ¬ ((60 : ℚ) ≤ 10) from by norm_num])).1⟩

/-- C9: a `call` rejected because the (lazily updated) state is OPEN leaves
the breaker completely unchanged — every counter and state field, hence also
the `get_metrics` lifetime totals — and the rejection is fail-fast.
(When the rejection happens, the lazy OPEN → HALF_OPEN check necessarily did
not fire, so even that exception is vacuous.) -/
theorem circuit_open_rejection_frame (cb : CB.CircuitBreaker) (now : ℚ)
    {ε α : Type} (func : Unit → CB.OpOutcome ε α)
    (h : (CB.state cb now).2 = CB.CircuitState.OPEN) :
    (CB.call cb now func).1 = cb ∧
    (CB.call cb now func).2 = CB.CallResult.rejected cb.timeout ∧
    CB.get_metrics (CB.call cb now func).1 = CB.get_metrics cb := by
  have hcond : ¬ (cb._state = CB.CircuitState.OPEN ∧
      CB._should_attempt_reset cb now = true) := by
    intro hc
    unfold CB.state at h
    rw [if_pos hc] at h
    simp [CB._transition_to] at h
  have hst : CB.state cb now = (cb, cb._state) := by
    unfold CB.state
    rw [if_neg hcond]
  have hopen : cb._state = CB.CircuitState.OPEN := by
    rw [hst] at h
    exact h
  refine ⟨?_, ?_, ?_⟩ <;>
    · unfold CB.call
      rw [hst]
      simp [hopen]

/-- Breaker stuck OPEN used as the C9 witness input. -/
def c9_cb : CB.CircuitBreaker :=
  { CB.init 5 2 30 with _state := .OPEN, _opened_at := some 100, _total_calls := 7 }

/-- Witness for `circuit_open_rejection_frame` at `c9_cb`, t=110. -/
theorem circuit_open_rejection_frame_witness :
    (CB.state c9_cb 110).2 = CB.CircuitState.OPEN ∧
    (CB.call c9_cb 110 (fun _ => CB.OpOutcome.exc () true :
        Unit → CB.OpOutcome Unit ℕ)).1 = c9_cb :=
  ⟨by simp [c9_cb, CB.state, CB._should_attempt_reset, CB.init,
      show ¬ ((30 : ℚ) ≤ 110 - 100) from by norm_num],
   (circuit_open_rejection_frame c9_cb 110
     (fun _ => CB.OpOutcome.exc () true)
     (by simp [c9_cb, CB.state, CB._should_attempt_reset, CB.init,
       show ¬ ((30 : ℚ) ≤ 110 - 100) from by norm_num])).1⟩

/-! ## Retry policy (`retry_policy.py`) -/

namespace RP

/-- Configuration of a `RetryPolicy` (`__init__` fields; the retryable
exception classification lives in the operation model below). -/
structure RetryPolicy where
  max_attempts : ℕ
  base_delay : ℚ
  max_delay : ℚ
  exponential_base : ℚ
  jitter : Bool
deriving DecidableEq

/-- The validation `RetryPolicy.__init__` enforces (raising `ValueError`
otherwise); `exponential_base` is deliberately not constrained, as in the
source. -/
def valid (p : RetryPolicy) : Prop :=
  1 ≤ p.max_attempts ∧ 0 ≤ p.base_delay ∧ p.base_delay ≤ p.max_delay

/-- `RetryPolicy._calculate_delay`.  `u` is the jitter offset actually
sampled by `random.uniform(-jitter_amount, jitter_amount)` (so in the real
program `|u| ≤ delay / 10`); with `jitter = false` the sample is never
drawn and `u` is ignored. -/
def _calculate_delay (p : RetryPolicy) (attempt : ℕ) (u : ℚ) : ℚ :=
  let delay := min (p.base_delay * p.exponential_base ^ attempt) p.max_delay
  if p.jitter = true ∧ 0 < delay then max 0 (delay + u) else delay

/-- `RetryAttempt` dataclass (the optional `exception` field is omitted:
`RetryAttemptIterator.__next__` never sets it). -/
structure RetryAttempt where
  number : ℕ
  max_attempts : ℕ
  next_delay : ℚ
deriving DecidableEq

/-- `RetryAttempt.should_retry` property: `self.number < self.max_attempts`. -/
def RetryAttempt.should_retry (a : RetryAttempt) : Bool :=
  decide (a.number < a.max_attempts)

/-- The finite sequence of `RetryAttempt` values produced by
`RetryAttemptIterator.__next__` before it raises `StopIteration`:
attempt numbers `0, 1, ..., max_attempts - 1`, each carrying its
precomputed delay (`u k` being the jitter sample consumed by the k-th
`_calculate_delay` call). -/
def attempts (p : RetryPolicy) (u : ℕ → ℚ) : List RetryAttempt :=
  (List.range p.max_attempts).map fun k =>
    { number := k, max_attempts := p.max_attempts,
      next_delay := _calculate_delay p k (u k) }

/-- Outcome of one invocation of the wrapped function, as classified by the
`except self.retryable_exceptions` clause of `RetryPolicy.retry`. -/
inductive Att (ε α : Type) where
  | ok (a : α)
  | retryable (e : ε)
  | nonretryable (e : ε)
deriving DecidableEq

/-- Overall result of `RetryPolicy.retry`'s wrapper: a returned value, a
raised exception, or the defensive `Exception("Retry logic error")` after a
zero-iteration loop. -/
inductive RunResult (ε α : Type) where
  | ok (a : α)
  | raised (e : ε)
  | logicError
deriving DecidableEq

/-- The `for attempt_num in range(max_attempts)` loop of
`RetryPolicy.retry`, entered at iteration `attempt_num` with fuel many
iterations remaining (fuel `= max_attempts - attempt_num`): success returns
the result; a non-retryable exception propagates uncaught; a retryable
exception re-raises when `attempt_num + 1 >= max_attempts` (fuel `= 1`) and
otherwise sleeps `_calculate_delay(attempt_num)` and continues. -/
def retryRun (op : ℕ → Att ε α) (attempt_num : ℕ) : ℕ → RunResult ε α
  | 0 => .logicError
  | n + 1 =>
    match op attempt_num with
    | .ok a => .ok a
    | .nonretryable e => .raised e
    | .retryable e => if n = 0 then .raised e else retryRun op (attempt_num + 1) n

/-- `RetryPolicy.retry` applied to an operation whose `k`-th invocation
yields `op k` (zero-indexed attempts). -/
def retry (op : ℕ → Att ε α) (max_attempts : ℕ) : RunResult ε α :=
  retryRun op 0 max_attempts

end RP

/-! ### Retry-policy theorems -/

lemma retryRun_ok {ε α : Type} (op : ℕ → RP.Att ε α) :
    ∀ (n k m : ℕ) (a : α), k ≤ m → m < k + n → op m = RP.Att.ok a →
      (∀ j, k ≤ j → j < m → ∃ e, op j = RP.Att.retryable e) →
      RP.retryRun op k n = RP.RunResult.ok a := by
  intro n
  induction n with
  | zero =>
    intro k m a hkm hlt
    omega
  | succ n ih =>
    intro k m a hkm hlt hok hprev
    by_cases hkm' : k = m
    · subst hkm'
      simp only [RP.retryRun]
      rw [hok]
    · have hklt : k < m := lt_of_le_of_ne hkm hkm'
      obtain ⟨e, he⟩ := hprev k le_rfl hklt
      have hn : n ≠ 0 := by omega
      simp only [RP.retryRun]
      rw [he]
      simp only [if_neg hn]
      exact ih (k + 1) m a (by omega) (by omega) hok
        (fun j hj1 hj2 => hprev j (by omega) hj2)

lemma retryRun_allfail {ε α : Type} (op : ℕ → RP.Att ε α) (e : ℕ → ε)
    (maxA : ℕ) (hall : ∀ j, j < maxA → op j = RP.Att.retryable (e j)) :
    ∀ (n k : ℕ), n ≠ 0 → k + n = maxA →
      RP.retryRun op k n = RP.RunResult.raised (e (maxA - 1)) := by
  intro n
  induction n with
  | zero =>
    intro k h0
    exact absurd rfl h0
  | succ n ih =>
    intro k _ hsum
    have hek := hall k (by omega)
    by_cases hn : n = 0
    · simp only [RP.retryRun, hek, if_pos hn]
      have hk : k = maxA - 1 := by omega
      rw [hk]
    · simp only [RP.retryRun, hek, if_neg hn]
      exact ih (k + 1) hn (by omega)

/-- C8: exception-driven retry.  If attempt `k` succeeds after retryable
failures, its result is returned and no later attempt is consulted (the
outcome is the same for any operation agreeing up to attempt `k`); if all
`max_attempts` attempts fail retryably, the failure of the final attempt —
the very value the operation produced, identity preserved — is re-raised. -/
theorem retry_exception_mode_contract {ε α : Type} (max_attempts : ℕ)
    (hA : 1 ≤ max_attempts) (op : ℕ → RP.Att ε α) :
    (∀ (k : ℕ) (a : α), k < max_attempts → op k = RP.Att.ok a →
      (∀ j, j < k → ∃ e, op j = RP.Att.retryable e) →
      RP.retry op max_attempts = RP.RunResult.ok a ∧
      ∀ op' : ℕ → RP.Att ε α, (∀ j, j ≤ k → op' j = op j) →
        RP.retry op' max_attempts = RP.RunResult.ok a) ∧
    (∀ e : ℕ → ε, (∀ j, j < max_attempts → op j = RP.Att.retryable (e j)) →
      RP.retry op max_attempts = RP.RunResult.raised (e (max_attempts - 1))) := by
  constructor
  · intro k a hk hok hprev
    constructor
    · exact retryRun_ok op max_attempts 0 k a (Nat.zero_le k) (by omega) hok
        (fun j _ hj2 => hprev j hj2)
    · intro op' hagree
      refine retryRun_ok op' max_attempts 0 k a (Nat.zero_le k) (by omega) ?_ ?_
      · rw [hagree k le_rfl]
        exact hok
      · intro j _ hj2
        obtain ⟨e, he⟩ := hprev j hj2
        exact ⟨e, by rw [hagree j (by omega)]; exact he⟩
  · intro e hall
    exact retryRun_allfail op e max_attempts hall max_attempts 0 (by omega) (by omega)

/-- Operation for the C8 witness: a retryable failure then a success. -/
def c8_op : ℕ → RP.Att ℕ ℕ := fun j => if j = 0 then .retryable 7 else .ok 5

/-- Witness for `retry_exception_mode_contract`: two attempts, first fails
retryably, second succeeds with value 5, which `retry` returns. -/
theorem retry_exception_mode_contract_witness :
    1 ≤ 2 ∧ c8_op 1 = RP.Att.ok 5 ∧
    RP.retry c8_op 2 = RP.RunResult.ok 5 :=
  ⟨by norm_num, rfl,
   ((retry_exception_mode_contract 2 (by norm_num) c8_op).1 1 5 (by norm_num) rfl
     (fun j hj => by
       have hj0 : j = 0 := by omega
       subst hj0
       exact ⟨7, rfl⟩)).1⟩

/-- Policy for the C4 counterexample: `exponential_base = 1/2` passes every
constructor check, yet makes the delay sequence strictly decreasing. -/
def c4_p : RP.RetryPolicy := ⟨3, 1, 60, 1/2, false⟩

/-- C4 counterexample: with jitter disabled and `exponential_base = 1/2`
(valid per `__init__`), `delay(1) = 1/2 < 1 = delay(0)`, so the delay
sequence is not non-decreasing for every `RetryPolicy`. -/
theorem retry_delay_nonmonotone_cex :
    RP.valid c4_p ∧
    RP._calculate_delay c4_p 1 0 < RP._calculate_delay c4_p 0 0 := by
  constructor
  · exact ⟨by norm_num [c4_p], by norm_num [c4_p], by norm_num [c4_p]⟩
  · norm_num [RP._calculate_delay, c4_p]

/-- C4 (amended): with jitter disabled the delay for zero-indexed attempt
`n` equals `min(base_delay * exponential_base ^ n, max_delay)` exactly, for
every policy; and whenever `base_delay ≥ 0` (as the constructor enforces)
and `exponential_base ≥ 1`, the delay sequence is non-decreasing in `n` up
to the `max_delay` cap. -/
theorem retry_delay_formula_and_mono (p : RP.RetryPolicy)
    (hj : p.jitter = false) :
    (∀ (n : ℕ) (u : ℚ),
      RP._calculate_delay p n u =
        min (p.base_delay * p.exponential_base ^ n) p.max_delay) ∧
    (0 ≤ p.base_delay → 1 ≤ p.exponential_base →
      ∀ (n : ℕ) (u u' : ℚ),
        RP._calculate_delay p n u ≤ RP._calculate_delay p (n + 1) u') := by
  have hform : ∀ (n : ℕ) (u : ℚ),
      RP._calculate_delay p n u =
        min (p.base_delay * p.exponential_base ^ n) p.max_delay := by
    intro n u
    simp [RP._calculate_delay, hj]
  refine ⟨hform, fun hb he n u u' => ?_⟩
  rw [hform, hform]
  exact min_le_min
    (mul_le_mul_of_nonneg_left (pow_le_pow_right₀ he (Nat.le_succ n)) hb) le_rfl

/-- Policy for the C4 and C10 witnesses: the defaults with jitter off. -/
def c4_p2 : RP.RetryPolicy := ⟨3, 1, 60, 2, false⟩

/-- Witness for `retry_delay_formula_and_mono` at attempt 2 of `c4_p2`. -/
theorem retry_delay_formula_and_mono_witness :
    c4_p2.jitter = false ∧
    RP._calculate_delay c4_p2 2 0 =
      min (c4_p2.base_delay * c4_p2.exponential_base ^ 2) c4_p2.max_delay :=
  ⟨rfl, (retry_delay_formula_and_mono c4_p2 rfl).1 2 0⟩

/-- C10: every `RetryAttempt` the manual iterator produces — the final one
included — satisfies `should_retry = true`, because produced numbers range
over `0 .. max_attempts - 1` while `should_retry` tests
`number < max_attempts`; the produced sequence has length `max_attempts`,
so no produced attempt flags itself as final. -/
theorem retry_iterator_every_attempt_says_retry (p : RP.RetryPolicy)
    (u : ℕ → ℚ) (a : RP.RetryAttempt) (ha : a ∈ RP.attempts p u) :
    a.should_retry = true ∧ (RP.attempts p u).length = p.max_attempts := by
  constructor
  · simp only [RP.attempts, List.mem_map, List.mem_range] at ha
    obtain ⟨k, hk, rfl⟩ := ha
    simp [RP.RetryAttempt.should_retry, hk]
  · simp [RP.attempts]

/-- Witness for `retry_iterator_every_attempt_says_retry`: the last attempt
produced for `c4_p2` (number 2 of 3, delay `min(1 * 2^2, 60) = 4`). -/
theorem retry_iterator_every_attempt_says_retry_witness :
    (⟨2, 3, 4⟩ : RP.RetryAttempt) ∈ RP.attempts c4_p2 (fun _ => 0) ∧
    RP.RetryAttempt.should_retry ⟨2, 3, 4⟩ = true :=
  have hmem : (⟨2, 3, 4⟩ : RP.RetryAttempt) ∈ RP.attempts c4_p2 (fun _ => 0) := by
    norm_num [RP.attempts, RP._calculate_delay, c4_p2, List.range_succ]
  ⟨hmem,
   (retry_iterator_every_attempt_says_retry c4_p2 (fun _ => 0) ⟨2, 3, 4⟩ hmem).1⟩

/-! ## Rate limiter (`rate_limiter.py`) -/

namespace RL

/-- Per-key bucket record created by `RateLimiter._get_bucket`. -/
structure Bucket where
  tokens : ℚ
  last_update : ℚ
  requests : ℕ
  allowed : ℕ
  rejected : ℕ
deriving DecidableEq

/-- A `RateLimiter` instance: constructor configuration (`rate`, `per`,
`burst`), the per-key bucket dictionary (as an association list) and the
global counters. -/
structure RateLimiter where
  rate : ℕ
  per : ℚ
  burst : ℕ
  _buckets : List (String × Bucket)
  _total_requests : ℕ
  _total_allowed : ℕ
  _total_rejected : ℕ
deriving DecidableEq

/-- `self.capacity = rate + burst`. -/
def capacityN (rl : RateLimiter) : ℕ := rl.rate + rl.burst

/-- The capacity as a rational token count. -/
def capacity (rl : RateLimiter) : ℚ := (capacityN rl : ℚ)

/-- `self.refill_rate = rate / per` tokens per second. -/
def refill_rate (rl : RateLimiter) : ℚ := (rl.rate : ℚ) / rl.per

/-- Dictionary lookup in the `_buckets` association list. -/
def lookupKey (key : String) : List (String × Bucket) → Option Bucket
  | [] => none
  | p :: rest => if p.1 = key then some p.2 else lookupKey key rest

/-- Dictionary store: replace the entry for `key`, or append it. -/
def setKey (key : String) (b : Bucket) :
    List (String × Bucket) → List (String × Bucket)
  | [] => [(key, b)]
  | p :: rest => if p.1 = key then (key, b) :: rest else p :: setKey key b rest

/-- `RateLimiter._get_bucket`: the bucket for `key`, created full
(`tokens = capacity`, `last_update = now`) on first use. -/
def _get_bucket (rl : RateLimiter) (key : String) (now : ℚ) : Bucket :=
  match lookupKey key rl._buckets with
  | some b => b
  | none => { tokens := capacity rl, last_update := now,
              requests := 0, allowed := 0, rejected := 0 }

/-- `RateLimiter._refill_tokens`: add `elapsed * refill_rate` tokens,
capped at capacity, and stamp `last_update`. -/
def _refill_tokens (rl : RateLimiter) (b : Bucket) (now : ℚ) : Bucket :=
  { b with
    tokens := min (capacity rl) (b.tokens + (now - b.last_update) * refill_rate rl)
    last_update := now }

/-- `RateLimiter.allow`: refill the bucket, count the request, then consume
`tokens` and admit iff enough are available. -/
def allow (rl : RateLimiter) (key : String) (tokens : ℚ) (now : ℚ) :
    RateLimiter × Bool :=
  let bucket := _refill_tokens rl (_get_bucket rl key now) now
  let bucket1 := { bucket with requests := bucket.requests + 1 }
  if tokens ≤ bucket1.tokens then
    let bucket2 := { bucket1 with
      tokens := bucket1.tokens - tokens
      allowed := bucket1.allowed + 1 }
    ({ rl with _buckets := setKey key bucket2 rl._buckets,
               _total_requests := rl._total_requests + 1,
               _total_allowed := rl._total_allowed + 1 }, true)
  else
    let bucket2 := { bucket1 with rejected := bucket1.rejected + 1 }
    ({ rl with _buckets := setKey key bucket2 rl._buckets,
               _total_requests := rl._total_requests + 1,
               _total_rejected := rl._total_rejected + 1 }, false)

/-- `n` successive single-token `allow` calls for `key`, all at time `t`. -/
def allowN (rl : RateLimiter) (key : String) (t : ℚ) : ℕ → RateLimiter
  | 0 => rl
  | n + 1 => (allow (allowN rl key t n) key 1 t).1

end RL

/-! ### Rate-limiter lemmas -/

lemma lookupKey_setKey (key : String) (b : RL.Bucket)
    (l : List (String × RL.Bucket)) :
    RL.lookupKey key (RL.setKey key b l) = some b := by
  induction l with
  | nil => simp [RL.setKey, RL.lookupKey]
  | cons p rest ih =>
    by_cases h : p.1 = key
    · simp [RL.setKey, RL.lookupKey, h]
    · simp [RL.setKey, RL.lookupKey, h, ih]

lemma capacity_congr (a b : RL.RateLimiter) (h1 : a.rate = b.rate)
    (h2 : a.burst = b.burst) : RL.capacity a = RL.capacity b := by
  unfold RL.capacity RL.capacityN
  rw [h1, h2]

lemma refill_rate_congr (a b : RL.RateLimiter) (h1 : a.rate = b.rate)
    (h2 : a.per = b.per) : RL.refill_rate a = RL.refill_rate b := by
  unfold RL.refill_rate
  rw [h1, h2]

/-- Evaluation of a single-token `allow` once the bucket for `key` and the
post-refill token count `tk` are known. -/
lemma allow_at_bucket (rlk : RL.RateLimiter) (key : String) (now : ℚ)
    (btok blu : ℚ) (breq ball brej : ℕ)
    (hbk : RL._get_bucket rlk key now = ⟨btok, blu, breq, ball, brej⟩)
    (tk : ℚ)
    (htk : min (RL.capacity rlk) (btok + (now - blu) * RL.refill_rate rlk) = tk) :
    RL.allow rlk key 1 now =
      (if (1 : ℚ) ≤ tk then
        ({ rlk with
            _buckets := RL.setKey key ⟨tk - 1, now, breq + 1, ball + 1, brej⟩
              rlk._buckets,
            _total_requests := rlk._total_requests + 1,
            _total_allowed := rlk._total_allowed + 1 }, true)
       else
        ({ rlk with
            _buckets := RL.setKey key ⟨tk, now, breq + 1, ball, brej + 1⟩
              rlk._buckets,
            _total_requests := rlk._total_requests + 1,
            _total_rejected := rlk._total_rejected + 1 }, false)) := by
  unfold RL.allow RL._refill_tokens
  rw [hbk]
  dsimp only
  rw [htk]

/-- Invariant of a run of single-token `allow` calls at a fixed instant on a
fresh key: after `k ≤ capacity` calls the configuration is unchanged and the
bucket holds `capacity - k` tokens with `k` requests, all allowed. -/
lemma allowN_fresh_inv (rl : RL.RateLimiter) (key : String) (t : ℚ)
    (hfresh : RL.lookupKey key rl._buckets = none) :
    ∀ k : ℕ, k ≤ RL.capacityN rl →
      (RL.allowN rl key t k).rate = rl.rate ∧
      (RL.allowN rl key t k).per = rl.per ∧
      (RL.allowN rl key t k).burst = rl.burst ∧
      RL._get_bucket (RL.allowN rl key t k) key t =
        ⟨RL.capacity rl - k, t, k, k, 0⟩ := by
  intro k
  induction k with
  | zero =>
    intro _
    refine ⟨rfl, rfl, rfl, ?_⟩
    simp [RL.allowN, RL._get_bucket, hfresh]
  | succ k ih =>
    intro hk1
    obtain ⟨hr, hp, hbu, hbk⟩ := ih (by omega)
    have hcap : RL.capacity (RL.allowN rl key t k) = RL.capacity rl :=
      capacity_congr _ _ hr hbu
    have htk : min (RL.capacity (RL.allowN rl key t k))
        ((RL.capacity rl - (k : ℚ)) + (t - t) * RL.refill_rate (RL.allowN rl key t k)) =
        RL.capacity rl - k := by
      rw [hcap, sub_self, zero_mul, add_zero]
      exact min_eq_right (sub_le_self _ (Nat.cast_nonneg k))
    have h1 : (1 : ℚ) ≤ RL.capacity rl - k := by
      have hc : ((k : ℚ) + 1) ≤ RL.capacity rl := by
        unfold RL.capacity
        exact_mod_cast hk1
      linarith
    have hstep := allow_at_bucket (RL.allowN rl key t k) key t
      (RL.capacity rl - k) t k k 0 hbk (RL.capacity rl - k) htk
    rw [if_pos h1] at hstep
    have hsub : RL.capacity rl - (k : ℚ) - 1 = RL.capacity rl - ((k + 1 : ℕ) : ℚ) := by
      push_cast
      ring
    refine ⟨?_, ?_, ?_, ?_⟩ <;>
      simp only [RL.allowN, hstep] <;>
      simp [RL._get_bucket, lookupKey_setKey, hr, hp, hbu, hsub]

/-- C5: on a fresh admission key the bucket is created full
(`tokens = capacity = rate + burst`); `capacity` immediate single-token
`allow` calls are all admitted; the `(capacity+1)`-th is rejected; and after
`per / rate` idle seconds exactly one further single-token call is
admittable (the next one at the same instant is rejected again). -/
theorem rate_limiter_fresh_bucket_admission (rl : RL.RateLimiter)
    (key : String) (t : ℚ) (hrate : 1 ≤ rl.rate) (hper : 0 < rl.per)
    (hfresh : RL.lookupKey key rl._buckets = none) :
    (RL._get_bucket rl key t).tokens = RL.capacity rl ∧
    (∀ k, k < RL.capacityN rl →
      (RL.allow (RL.allowN rl key t k) key 1 t).2 = true) ∧
    (RL.allow (RL.allowN rl key t (RL.capacityN rl)) key 1 t).2 = false ∧
    (RL.allow (RL.allowN rl key t (RL.capacityN rl + 1)) key 1
      (t + rl.per / rl.rate)).2 = true ∧
    (RL.allow (RL.allow (RL.allowN rl key t (RL.capacityN rl + 1)) key 1
      (t + rl.per / rl.rate)).1 key 1 (t + rl.per / rl.rate)).2 = false := by
  have hrq : (0 : ℚ) < (rl.rate : ℚ) := by exact_mod_cast hrate
  have hcap1 : (1 : ℚ) ≤ RL.capacity rl := by
    unfold RL.capacity RL.capacityN
    exact_mod_cast Nat.le_add_right_of_le hrate
  refine ⟨?_, ?_, ?_, ?_, ?_⟩
  · simp [RL._get_bucket, hfresh]
  · -- each of the first `capacity` immediate calls is admitted
    intro k hk
    obtain ⟨hr, hp, hbu, hbk⟩ := allowN_fresh_inv rl key t hfresh k (by omega)
    have hcapk : RL.capacity (RL.allowN rl key t k) = RL.capacity rl :=
      capacity_congr _ _ hr hbu
    have htk : min (RL.capacity (RL.allowN rl key t k))
        ((RL.capacity rl - (k : ℚ)) +
          (t - t) * RL.refill_rate (RL.allowN rl key t k)) =
        RL.capacity rl - k := by
      rw [hcapk, sub_self, zero_mul, add_zero]
      exact min_eq_right (sub_le_self _ (Nat.cast_nonneg k))
    have h1 : (1 : ℚ) ≤ RL.capacity rl - k := by
      have hc : ((k : ℚ) + 1) ≤ RL.capacity rl := by
        unfold RL.capacity
        exact_mod_cast hk
      linarith
    rw [allow_at_bucket (RL.allowN rl key t k) key t
      (RL.capacity rl - k) t k k 0 hbk (RL.capacity rl - k) htk, if_pos h1]
  · -- the `(capacity + 1)`-th immediate call is rejected
    obtain ⟨hr, hp, hbu, hbk⟩ :=
      allowN_fresh_inv rl key t hfresh (RL.capacityN rl) le_rfl
    have hcapk : RL.capacity (RL.allowN rl key t (RL.capacityN rl)) =
        RL.capacity rl :=
      capacity_congr _ _ hr hbu
    have htk : min (RL.capacity (RL.allowN rl key t (RL.capacityN rl)))
        ((RL.capacity rl - ((RL.capacityN rl : ℕ) : ℚ)) +
          (t - t) * RL.refill_rate (RL.allowN rl key t (RL.capacityN rl))) =
        0 := by
      rw [hcapk, sub_self, zero_mul, add_zero]
      rw [show RL.capacity rl - ((RL.capacityN rl : ℕ) : ℚ) = 0 from sub_self _]
      exact min_eq_right (by linarith)
    rw [allow_at_bucket (RL.allowN rl key t (RL.capacityN rl)) key t
      (RL.capacity rl - ((RL.capacityN rl : ℕ) : ℚ)) t
      (RL.capacityN rl) (RL.capacityN rl) 0 hbk 0 htk,
      if_neg (by norm_num)]
  all_goals
  · -- state after `capacity + 1` calls, then the refill at `t + per/rate`
    obtain ⟨hr, hp, hbu, hbk⟩ :=
      allowN_fresh_inv rl key t hfresh (RL.capacityN rl) le_rfl
    have hcapk : RL.capacity (RL.allowN rl key t (RL.capacityN rl)) =
        RL.capacity rl :=
      capacity_congr _ _ hr hbu
    have htk : min (RL.capacity (RL.allowN rl key t (RL.capacityN rl)))
        ((RL.capacity rl - ((RL.capacityN rl : ℕ) : ℚ)) +
          (t - t) * RL.refill_rate (RL.allowN rl key t (RL.capacityN rl))) =
        0 := by
      rw [hcapk, sub_self, zero_mul, add_zero]
      rw [show RL.capacity rl - ((RL.capacityN rl : ℕ) : ℚ) = 0 from sub_self _]
      exact min_eq_right (by linarith)
    have hstep3 := allow_at_bucket (RL.allowN rl key t (RL.capacityN rl)) key t
      (RL.capacity rl - ((RL.capacityN rl : ℕ) : ℚ)) t
      (RL.capacityN rl) (RL.capacityN rl) 0 hbk 0 htk
    rw [if_neg (by norm_num : ¬ ((1 : ℚ) ≤ 0))] at hstep3
    have h41 : RL.allowN rl key t (RL.capacityN rl + 1) =
        { RL.allowN rl key t (RL.capacityN rl) with
          _buckets := RL.setKey key ⟨0, t, RL.capacityN rl + 1, RL.capacityN rl, 1⟩
            (RL.allowN rl key t (RL.capacityN rl))._buckets,
          _total_requests :=
            (RL.allowN rl key t (RL.capacityN rl))._total_requests + 1,
          _total_rejected :=
            (RL.allowN rl key t (RL.capacityN rl))._total_rejected + 1 } := by
      simp only [RL.allowN, hstep3]
    have hr1 : (RL.allowN rl key t (RL.capacityN rl + 1)).rate = rl.rate := by
      rw [h41]
      exact hr
    have hp1 : (RL.allowN rl key t (RL.capacityN rl + 1)).per = rl.per := by
      rw [h41]
      exact hp
    have hbu1 : (RL.allowN rl key t (RL.capacityN rl + 1)).burst = rl.burst := by
      rw [h41]
      exact hbu
    have hbk1 : RL._get_bucket (RL.allowN rl key t (RL.capacityN rl + 1)) key
        (t + rl.per / rl.rate) = ⟨0, t, RL.capacityN rl + 1, RL.capacityN rl, 1⟩ := by
      rw [h41]
      simp [RL._get_bucket, lookupKey_setKey]
    have hcapk1 : RL.capacity (RL.allowN rl key t (RL.capacityN rl + 1)) =
        RL.capacity rl :=
      capacity_congr _ _ hr1 hbu1
    have hrr1 : RL.refill_rate (RL.allowN rl key t (RL.capacityN rl + 1)) =
        RL.refill_rate rl :=
      refill_rate_congr _ _ hr1 hp1
    have htk4 : min (RL.capacity (RL.allowN rl key t (RL.capacityN rl + 1)))
        ((0 : ℚ) + (t + rl.per / rl.rate - t) *
          RL.refill_rate (RL.allowN rl key t (RL.capacityN rl + 1))) = 1 := by
      rw [hcapk1, hrr1, zero_add, add_sub_cancel_left]
      rw [show RL.refill_rate rl = (rl.rate : ℚ) / rl.per from rfl]
      rw [div_mul_div_comm, mul_comm,
        div_self (by positivity : (rl.rate : ℚ) * rl.per ≠ 0)]
      exact min_eq_right hcap1
    have hstep4 := allow_at_bucket (RL.allowN rl key t (RL.capacityN rl + 1)) key
      (t + rl.per / rl.rate) 0 t (RL.capacityN rl + 1) (RL.capacityN rl) 1
      hbk1 1 htk4
    rw [if_pos (le_refl (1 : ℚ))] at hstep4
    first
    | -- part 4: the refilled call is admitted
      (rw [hstep4]
       done)
    | -- part 5: the call after it at the same instant is rejected
      ( have hbk2 : RL._get_bucket
            (RL.allow (RL.allowN rl key t (RL.capacityN rl + 1)) key 1
              (t + rl.per / rl.rate)).1 key (t + rl.per / rl.rate) =
            ⟨1 - 1, t + rl.per / rl.rate,
              RL.capacityN rl + 1 + 1, RL.capacityN rl + 1, 1⟩ := by
          rw [hstep4]
          simp [RL._get_bucket, lookupKey_setKey]
        have hr2 : (RL.allow (RL.allowN rl key t (RL.capacityN rl + 1)) key 1
            (t + rl.per / rl.rate)).1.rate = rl.rate := by
          rw [hstep4]
          exact hr1
        have hbu2 : (RL.allow (RL.allowN rl key t (RL.capacityN rl + 1)) key 1
            (t + rl.per / rl.rate)).1.burst = rl.burst := by
          rw [hstep4]
          exact hbu1
        have hcapk2 : RL.capacity
            (RL.allow (RL.allowN rl key t (RL.capacityN rl + 1)) key 1
              (t + rl.per / rl.rate)).1 = RL.capacity rl :=
          capacity_congr _ _ hr2 hbu2
        have htk5 : min (RL.capacity
            (RL.allow (RL.allowN rl key t (RL.capacityN rl + 1)) key 1
              (t + rl.per / rl.rate)).1)
            (((1 : ℚ) - 1) + (t + rl.per / rl.rate - (t + rl.per / rl.rate)) *
              RL.refill_rate
                (RL.allow (RL.allowN rl key t (RL.capacityN rl + 1)) key 1
                  (t + rl.per / rl.rate)).1) = 0 := by
          rw [hcapk2, show (1 : ℚ) - 1 = 0 from by norm_num, sub_self,
            zero_mul, add_zero]
          exact min_eq_right (by linarith)
        rw [allow_at_bucket _ key (t + rl.per / rl.rate) (1 - 1)
          (t + rl.per / rl.rate) (RL.capacityN rl + 1 + 1) (RL.capacityN rl + 1) 1
          hbk2 0 htk5, if_neg (by norm_num)] )

/-- Limiter for the C5 witness: `rate = 1`, `per = 1`, `burst = 1`
(capacity 2), no buckets yet. -/
def c5_rl : RL.RateLimiter := ⟨1, 1, 1, [], 0, 0, 0⟩

/-- Witness for `rate_limiter_fresh_bucket_admission`: on `c5_rl` the third
immediate call (after the two the capacity admits) is rejected. -/
theorem rate_limiter_fresh_bucket_admission_witness :
    1 ≤ c5_rl.rate ∧ (0 : ℚ) < c5_rl.per ∧
    RL.lookupKey "k" c5_rl._buckets = none ∧
    (RL.allow (RL.allowN c5_rl "k" 0 (RL.capacityN c5_rl)) "k" 1 0).2 = false :=
  ⟨by norm_num [c5_rl], by norm_num [c5_rl], rfl,
   (rate_limiter_fresh_bucket_admission c5_rl "k" 0 (by norm_num [c5_rl])
     (by norm_num [c5_rl]) rfl).2.2.1⟩

/-! ## Dead-letter queue (`dlq.py`) -/

namespace DLQ

/-- `DLQMessage` dataclass.  The id is modelled by the uniqueness-carrying
counter component of the Python id string
`"dlq_<datetime>_<counter>"`; `metadata` is not needed by the claims. -/
structure DLQMessage where
  id : ℕ
  message : String
  reason : String
  timestamp : ℚ
  retry_count : ℕ
  source : Option String
deriving DecidableEq

/-- A `DeadLetterQueue` on the in-memory backend: configuration plus
`_storage`, the id counter and the lifetime totals. -/
structure DeadLetterQueue where
  max_retry_attempts : ℕ
  retention_days : ℕ
  alert_threshold : ℕ
  _storage : List DLQMessage
  _message_counter : ℕ
  _total_sent : ℕ
  _total_replayed : ℕ
  _total_archived : ℕ
deriving DecidableEq

/-- `DeadLetterQueue.send` on the in-memory backend: assign the next id,
append the message, bump `_total_sent`, then evaluate the alert-threshold
check.  The returned Boolean records whether the alert (the
`logger.warning` emitted when `len(self._storage) >= self.alert_threshold`
after the insertion) fired. -/
def send (dlq : DeadLetterQueue) (message reason : String)
    (source : Option String) (now : ℚ) : DeadLetterQueue × ℕ × Bool :=
  let counter := dlq._message_counter + 1
  let msg : DLQMessage :=
    { id := counter
      message := message
      reason := reason
      timestamp := now
      retry_count := 0
      source := source }
  let storage := dlq._storage ++ [msg]
  ({ dlq with
      _storage := storage
      _message_counter := counter
      _total_sent := dlq._total_sent + 1 },
   counter, decide (dlq.alert_threshold ≤ storage.length))

/-- `DeadLetterQueue.purge`: the effective threshold is
`older_than_days or self.retention_days` (Python `or`, so an explicit 0 also
falls back to the configured retention); the cutoff is `now` minus
`days * 86400` seconds (`timedelta(days=days)`); exactly the messages with
`timestamp > cutoff` are kept.  Returns the new queue and the purged count
`original_size - len(storage)`. -/
def purge (dlq : DeadLetterQueue) (older_than_days : Option ℕ) (now : ℚ) :
    DeadLetterQueue × ℕ :=
  let days := match older_than_days with
    | none => dlq.retention_days
    | some d => if d = 0 then dlq.retention_days else d
  let cutoff_date := now - (days : ℚ) * 86400
  let storage := dlq._storage.filter (fun msg => decide (cutoff_date < msg.timestamp))
  let purged := dlq._storage.length - storage.length
  ({ dlq with _storage := storage }, purged)

end DLQ

/-! ### Dead-letter-queue theorems -/

/-- Empty queue with `alert_threshold = 2` for the C2 counterexample. -/
def c2_dlq : DLQ.DeadLetterQueue := ⟨3, 7, 2, [], 0, 0, 0, 0⟩

/-- C2 counterexample: with `alert_threshold = 2` and an empty queue the
first `send` does not fire the alert but the second one does (size 2 ≥ 2),
so the 3rd send is not the first to trigger it. -/
theorem dlq_alert_fires_on_second_send :
    (DLQ.send c2_dlq "m1" "r" none 0).2.2 = false ∧
    (DLQ.send (DLQ.send c2_dlq "m1" "r" none 0).1 "m2" "r" none 0).2.2 = true := by
  constructor <;> simp [c2_dlq, DLQ.send]

/-- C2 (amended): every `send` grows the queue by one message, and the alert
fires exactly when the queue size after the insertion is at least
`alert_threshold` — with an empty queue and threshold 2 the 2nd send is
therefore the first to fire, and every subsequent send while the size stays
at or above the threshold fires again.  (In the source the "alert observer"
is the `logger.warning` threshold branch of `send`; no user-configurable
callback exists in `dlq.py`.) -/
theorem dlq_send_alert_iff_threshold (dlq : DLQ.DeadLetterQueue)
    (message reason : String) (source : Option String) (now : ℚ) :
    (DLQ.send dlq message reason source now).1._storage.length =
      dlq._storage.length + 1 ∧
    ((DLQ.send dlq message reason source now).2.2 = true ↔
      dlq.alert_threshold ≤ dlq._storage.length + 1) := by
  constructor <;> simp [DLQ.send]

lemma length_sub_filter (p : DLQ.DLQMessage → Bool) (l : List DLQ.DLQMessage) :
    l.length - (l.filter p).length = l.countP (fun x => !p x) := by
  induction l with
  | nil => rfl
  | cons x xs ih =>
    simp only [List.filter_cons, List.countP_cons, List.length_cons]
    by_cases h : p x
    · simp [h, Nat.succ_sub_succ, ih]
    · have hle := List.length_filter_le p xs
      simp [h, ← ih]
      omega

/-- One-message queue (timestamp 0) for the C7 counterexample. -/
def c7_dlq : DLQ.DeadLetterQueue :=
  ⟨3, 7, 100, [⟨1, "m", "r", 0, 0, none⟩], 1, 1, 0, 0⟩

/-- C7 counterexample: purging with a 1-day threshold at `now = 86400`
(exactly one day after the message's timestamp) removes the message whose
age equals the cutoff exactly — the claim says such a message is kept. -/
theorem dlq_purge_removes_boundary_message :
    c7_dlq._storage ≠ [] ∧
    (DLQ.purge c7_dlq (some 1) 86400).1._storage = [] ∧
    (DLQ.purge c7_dlq (some 1) 86400).2 = 1 := by
  refine ⟨by simp [c7_dlq], ?_, ?_⟩ <;> simp [c7_dlq, DLQ.purge]

/-- C7 (amended): `purge` removes exactly the messages whose age is at least
the threshold — a message whose age equals the cutoff exactly is removed,
strictly newer ones are kept — and returns the number removed; with no
argument the configured `retention_days` is used.  (Threshold stated as
`d + 1` because `purge(0)` falls back to the configured retention via
Python's `or`.) -/
theorem dlq_purge_cutoff_inclusive (dlq : DLQ.DeadLetterQueue) (d : ℕ)
    (now : ℚ) :
    (∀ msg, msg ∈ (DLQ.purge dlq (some (d + 1)) now).1._storage ↔
      (msg ∈ dlq._storage ∧ now - ((d + 1 : ℕ) : ℚ) * 86400 < msg.timestamp)) ∧
    (DLQ.purge dlq (some (d + 1)) now).2 =
      dlq._storage.countP
        (fun msg => !decide (now - ((d + 1 : ℕ) : ℚ) * 86400 < msg.timestamp)) ∧
    DLQ.purge dlq none now = DLQ.purge dlq (some dlq.retention_days) now := by
  refine ⟨?_, ?_, ?_⟩
  · intro msg
    simp [DLQ.purge, List.mem_filter]
  · simp only [DLQ.purge]
    exact length_sub_filter _ _
  · by_cases h : dlq.retention_days = 0
    · simp [DLQ.purge, h]
    · simp [DLQ.purge, h]

/-! ## Distributed rate limiter (`rate_limiter.py`, `DistributedRateLimiter`) -/

namespace DRL

/-- Configuration of a `DistributedRateLimiter` (sliding-window algorithm). -/
structure DistributedRateLimiter where
  rate : ℕ
  per : ℚ
deriving DecidableEq

/-- Python `int()` truncation toward zero, as applied by `int(self.per)`. -/
def pyInt (q : ℚ) : ℤ := q.num.tdiv q.den

/-- `DistributedRateLimiter.allow`: the Redis pipeline for key `k` —
`zremrangebyscore(k, -inf, window_start)` removes every member with score
`≤ now - per` (the Redis range is inclusive), `zcard` counts the remaining
members, `zadd` unconditionally inserts `now`, and `expire` sets a TTL of
`int(per) + 1` seconds on the whole per-key sorted set.  The result is
((stored scores after the call, TTL), admitted), with admission decided by
the pre-insert count. -/
def allow (d : DistributedRateLimiter) (store : List ℚ) (now : ℚ) :
    (List ℚ × ℤ) × Bool :=
  let window_start := now - d.per
  let pruned := store.filter (fun s => decide (window_start < s))
  let request_count := pruned.length
  ((pruned ++ [now], pyInt d.per + 1), decide (request_count < d.rate))

/-- The admission check as the claim words it, for comparison with `allow`:
remove the entries strictly older than `now - per` (keeping the boundary
entry), count, record `now` with an expiry of `per`, and admit iff the
pre-insert count is below `rate`. -/
def allowClaimed (d : DistributedRateLimiter) (store : List ℚ) (now : ℚ) :
    (List ℚ × ℚ) × Bool :=
  let window_start := now - d.per
  let kept := store.filter (fun s => decide (window_start ≤ s))
  ((kept ++ [now], d.per), decide (kept.length < d.rate))

end DRL

/-! ### Distributed-rate-limiter theorems -/

/-- Limiter with `rate = 1`, `per = 10` for the C6 counterexample. -/
def c6_d : DRL.DistributedRateLimiter := ⟨1, 10⟩

/-- C6 counterexample: with one stored entry exactly at `now - per`, the
code prunes it (the Redis range is inclusive) and admits, while the claim's
reading keeps it and rejects; and the recorded expiry is `int(per) + 1 = 11`
seconds on the collection, not `per = 10`. -/
theorem distributed_allow_boundary_cex :
    (DRL.allow c6_d [0] 10).2 = true ∧
    (DRL.allowClaimed c6_d [0] 10).2 = false ∧
    (DRL.allow c6_d [0] 10).1.2 = 11 ∧
    (DRL.allowClaimed c6_d [0] 10).1.2 = 10 := by
  refine ⟨?_, ?_, ?_, ?_⟩ <;>
    simp [DRL.allow, DRL.allowClaimed, DRL.pyInt, c6_d,
      show ((10 : ℚ)).num = 10 from rfl, show ((10 : ℚ)).den = 1 from rfl,
      show ((10 : ℤ)).tdiv 1 = 10 from by decide]

/-- C6 (amended): each `DistributedRateLimiter.allow(key)` call at time
`now` keeps exactly the stored entries with timestamp strictly inside the
window (`> now - per`; an entry exactly at `now - per` is removed),
unconditionally records `now` as a new entry — also on rejection — with a
time-to-live of `int(per) + 1` seconds set on the whole per-key collection,
and admits exactly when the number of stored entries inside the window
observed before the insert is strictly less than `rate`. -/
theorem distributed_allow_characterization (d : DRL.DistributedRateLimiter)
    (store : List ℚ) (now : ℚ) :
    (∀ s : ℚ, s ∈ (DRL.allow d store now).1.1 ↔
      ((s ∈ store ∧ now - d.per < s) ∨ s = now)) ∧
    now ∈ (DRL.allow d store now).1.1 ∧
    ((DRL.allow d store now).2 = true ↔
      store.countP (fun s => decide (now - d.per < s)) < d.rate) ∧
    (DRL.allow d store now).1.2 = DRL.pyInt d.per + 1 := by
  refine ⟨?_, ?_, ?_, ?_⟩
  · intro s
    simp [DRL.allow, List.mem_filter]
  · simp [DRL.allow]
  · simp [DRL.allow, List.countP_eq_length_filter]
  · rfl

end Resilience
